import Mathlib

/-!
Verification of the JOS kernel monitor (`kern/monitor.c`).

This file gives a shallow embedding of the monitor: the numeral parser
`convert`, the tokenizer and command dispatcher `runcmd`, the seven command
handlers of the static command table, and the console loop `monitorRun`,
all modelled over an explicit kernel state `KState`.

Modelling conventions:
* the monitor targets a 32-bit machine, so machine words are natural
  numbers reduced modulo `W = 2 ^ 32` wherever the C code can wrap;
* the signed accumulator of `convert` (a C `int`) is modelled as an
  integer reduced into `[0, 2^32)` by `Int.emod` after each step: C signed
  `+`/`*` agree with arithmetic modulo `2^32` on two's-complement
  representatives, and the final cast to `uintptr_t` is exactly that
  residue;
* the external page-table walk `pgdir_walk` lives in `kern/pmap.c`, which
  is not part of the sources under verification; it is modelled from the
  spec's contract (see its doc comment);
* C loops are embedded as structurally recursive functions on an explicit
  iteration bound; the bound is chosen so that exhausting it corresponds
  exactly to a C loop that never exits (reported as `none`, like a crash);
* a handler that would dereference a null pointer or hit a kernel `panic`
  returns `none`; a handler that returns status `r` after emitting the
  output `evs` and leaving the state `st` returns `some (r, evs, st)`.
-/

namespace JosMonitor

/-- Machine-word modulus: the monitor runs on a 32-bit machine. -/
def W : Nat := 2 ^ 32

/-- Page size, from `inc/mmu.h`. -/
def PGSIZE : Nat := 4096

/-- Base of the kernel's physical-memory window, from `inc/memlayout.h`. -/
def KERNBASE : Nat := 0xF0000000

/-- Present bit of a page-table entry. -/
def PTE_P : Nat := 1

/-- Writable bit of a page-table entry. -/
def PTE_W : Nat := 2

/-- User bit of a page-table entry. -/
def PTE_U : Nat := 4

/-- Maximum number of argument tokens, `#define MAXARGS 16`. -/
def MAXARGS : Nat := 16

/-! ## The numeral parser `convert` (monitor.c lines 87-106) -/

/-- The contribution of one input character to `convert`'s accumulator,
mirroring `if (*c <= '9') res += *c - '0'; else res += *c - 'a' + 10;`
(`'0' = 48`, `'9' = 57`, `'a' = 97`).  Input characters are 7-bit ASCII
(the console delivers ASCII), modelled by their unsigned code. -/
def digitStep (c : Char) : Int :=
  if c.toNat ≤ 57 then (c.toNat : Int) - 48 else (c.toNat : Int) - 97 + 10

/-- The accumulation loop `while (*c) { res *= base; ...; c++; }` of
`convert`; the accumulator is reduced modulo `2^32` after each step (see
the modelling conventions above). -/
def convertLoop (base : Nat) : Int → List Char → Int
  | res, [] => res
  | res, c :: cs => convertLoop base ((res * base + digitStep c) % (W : Int)) cs

/-- `convert` (monitor.c lines 87-106): a token starting with `'0'` then
`'x'` is read in base 16 from its third character on, any other token in
base 10 from its first character on. -/
def convert (s : List Char) : Nat :=
  match s with
  | '0' :: 'x' :: cs => (convertLoop 16 0 cs).toNat
  | _ => (convertLoop 10 0 s).toNat

/-- Reference semantics for claim C5: the decimal value of a digit string. -/
def decValue (s : List Char) : Nat :=
  s.foldl (fun a c => 10 * a + (c.toNat - 48)) 0

/-- Reference semantics for claim C5: the value of one hexadecimal digit,
`'0'..'9'` to `0..9` and `'a'..'f'` to `10..15`. -/
def hexDigit (c : Char) : Nat :=
  if c.toNat ≤ 57 then c.toNat - 48 else c.toNat - 97 + 10

/-- Reference semantics for claim C5: the value of a lowercase-hex string. -/
def hexValue (s : List Char) : Nat :=
  s.foldl (fun a c => 16 * a + hexDigit c) 0

/-! ## The tokenizer (monitor.c lines 197-215) -/

/-- `strchr(WHITESPACE, c)` with `WHITESPACE = "\t\r\n "`. -/
def isWS (c : Char) : Bool :=
  c == '\t' || c == '\r' || c == '\n' || c == ' '

/-- The argument-gathering loop of `runcmd` (monitor.c lines 199-214):
skip whitespace; at end of buffer stop; when a 16th token is found report
"Too many arguments" by returning `none`; otherwise record the token and
continue after it.  The first argument is fuel; every recursive call
consumes at least one character of the buffer, so any `fuel ≥ buf.length`
computes the loop exactly (the `0, _ :: _` row is unreachable then). -/
def tokLoop : Nat → List Char → Nat → Option (List (List Char))
  | _, [], _ => some []
  | fuel + 1, c :: rest, argc =>
    if isWS c then tokLoop fuel rest argc
    else if argc = MAXARGS - 1 then none
    else
      match tokLoop fuel ((c :: rest).dropWhile (fun x => !isWS x)) (argc + 1) with
      | none => none
      | some ts => some ((c :: rest).takeWhile (fun x => !isWS x) :: ts)
  | 0, _ :: _, _ => none

/-- The token list `argv` that `runcmd` builds from `buf`, or `none` when
the "Too many arguments" branch fires. -/
def gettoks (buf : List Char) : Option (List (List Char)) :=
  tokLoop buf.length buf 0

/-- The whitespace-separated tokens of a buffer with no bound on their
number (the same loop without the `MAXARGS` check); reference semantics
for claim C6's token count. -/
def wsTokensF : Nat → List Char → List (List Char)
  | _, [] => []
  | fuel + 1, c :: rest =>
    if isWS c then wsTokensF fuel rest
    else (c :: rest).takeWhile (fun x => !isWS x) ::
      wsTokensF fuel ((c :: rest).dropWhile (fun x => !isWS x))
  | 0, _ :: _ => []

/-- All whitespace-separated tokens of a buffer. -/
def wsTokens (buf : List Char) : List (List Char) :=
  wsTokensF buf.length buf

/-! ## Kernel state and output events -/

/-- One line of output through `cprintf`, abstracted to the data that is
printed.  `usage s` is the "Usage : ..." line of command `s`; `mapped`
carries the virtual address, `PTE_ADDR(*ptet)` and the three printed
permission bits; `frame` carries `ebp`, `eip` and the five argument
words; `symLine` stands for the `debuginfo_eip` line printed for a
return address. -/
inductive Event where
  | usage (cmd : String)
  | helpLine (name desc : String)
  | kerninfoOut
  | btHeader
  | frame (ebp eip : Nat) (args : List Nat)
  | symLine (eip : Nat)
  | gotArgs (b e : Nat)
  | walkError
  | mapped (va pa : Nat) (p u w : Bool)
  | notMapped (va : Nat)
  | dumpWord (addr val : Nat)
  | unknownCmd (name : List Char)
  | tooManyArgs
  deriving DecidableEq, Repr

/-- The kernel state the monitor reads and writes: the page directory
(`kern_pgdir`, a partial map from directory index to the page table it
points to, `none` meaning the directory entry is not present), the number
of free physical pages the allocator can still hand out, virtual memory
(the 32-bit word stored at a byte address), the current frame pointer
(`read_ebp()`), and `npages` (used by the `KADDR` bounds check). -/
structure KState where
  pgdir : Nat → Option (Nat → Nat)
  freePages : Nat
  mem : Nat → Nat
  ebp : Nat
  npages : Nat

/-- The result of one handler or of `runcmd`: `none` models a crash
(null-pointer dereference or kernel panic), `some (r, evs, st)` a normal
return with status `r`, output `evs` and new state `st`. -/
abbrev HResult := Option (Int × List Event × KState)

/-- The common type of the command handlers. -/
abbrev Handler := List (List Char) → KState → HResult

/-- Page-directory index of a virtual address, `PDX(va) = (va >> 22) & 0x3FF`. -/
def PDX (va : Nat) : Nat := va / 2 ^ 22 % 1024

/-- Page-table index of a virtual address, `PTX(va) = (va >> 12) & 0x3FF`. -/
def PTX (va : Nat) : Nat := va / 2 ^ 12 % 1024

/-- Modelled from the spec: the external page-table walk `pgdir_walk`
(in `kern/pmap.c`, which is not among the sources): "page-table walk
`(table_root, virtual_address, allocate: bool) → mutable reference to leaf
entry or failure"; with the allocate flag set it "allocates, if absent"
the intermediate page table for the address (a zero-filled page taken
from the allocator, its directory entry written), and it fails (returns a
null pointer) when the table is absent and either the flag is clear or no
free page remains ("e.g., out of memory for an intermediate table").
The returned reference is the pair of directory and table index. -/
def pgdir_walk (st : KState) (va : Nat) (create : Bool) :
    Option ((Nat × Nat) × KState) :=
  match st.pgdir (PDX va) with
  | some _ => some ((PDX va, PTX va), st)
  | none =>
    if create && st.freePages != 0 then
      some ((PDX va, PTX va),
        { st with
          pgdir := fun j => if j = PDX va then some (fun _ => 0) else st.pgdir j,
          freePages := st.freePages - 1 })
    else none

/-- Read the leaf entry a walk reference points to (`*ptet`). -/
def getPTE (st : KState) (r : Nat × Nat) : Nat :=
  match st.pgdir r.1 with
  | some pt => pt r.2
  | none => 0

/-- Write the leaf entry a walk reference points to (`*ptet = v`). -/
def setPTE (st : KState) (r : Nat × Nat) (v : Nat) : KState :=
  match st.pgdir r.1 with
  | some pt =>
    { st with
      pgdir := fun j =>
        if j = r.1 then some (fun t => if t = r.2 then v else pt t)
        else st.pgdir j }
  | none => st

/-! ## The command handlers (monitor.c lines 39-181) -/

/-- The names and descriptions of the static command table (monitor.c
lines 26-34); kept separate from the handler column so that `mon_help`,
which prints this data, can be defined before the table that contains
`mon_help` itself. -/
def cmdInfo : List (String × String) :=
  [("help", "Display this list of commands"),
   ("kerninfo", "Display information about the kernel"),
   ("backtrace", "Display all the outstanding stack frames"),
   ("showmappings", "Display memory mappings"),
   ("setPerm", "Set permission of a vtirual page"),
   ("vvm", "Dump contents of certain virtual memory"),
   ("vpm", "Dump contents of certain physical memory")]

/-- `mon_help` (lines 39-47): print one line per table entry, return 0.
It performs no argument-count check. -/
def mon_help : Handler := fun _ st =>
  some (0, cmdInfo.map (fun p => Event.helpLine p.1 p.2), st)

/-- `mon_kerninfo` (lines 49-63): print the fixed kernel symbol addresses
(data of the linker, outside this model), return 0.  No argument-count
check. -/
def mon_kerninfo : Handler := fun _ st =>
  some (0, [Event.kerninfoOut], st)

/-- The backtrace loop `while (ebp != 0)` (lines 71-81): at each frame
print `ebp`, the return address `*(ebp+1)` one word above it, and the
five words `*(ebp+2) .. *(ebp+6)` above that, then the `debuginfo_eip`
line, then follow `ebp = (uint32_t*)*ebp`.  Pointer arithmetic is on
32-bit byte addresses, hence the `% W`.  The first argument is fuel: on a
32-bit machine a chain of more than `2^32` frames must revisit a frame
pointer, i.e. the C loop never exits; that case yields `none`. -/
def btRun (mem : Nat → Nat) : Nat → Nat → Option (List Event)
  | _, 0 => some []
  | 0, _ + 1 => none
  | fuel + 1, e + 1 =>
    let ebp := e + 1
    match btRun mem fuel (mem ebp) with
    | none => none
    | some evs =>
      some (Event.frame ebp (mem ((ebp + 4) % W))
              [mem ((ebp + 8) % W), mem ((ebp + 12) % W), mem ((ebp + 16) % W),
               mem ((ebp + 20) % W), mem ((ebp + 24) % W)] ::
            Event.symLine (mem ((ebp + 4) % W)) :: evs)

/-- Fuel bound for the backtrace walk: `2^32` distinct frame pointers. -/
def BT_FUEL : Nat := 2 ^ 32

/-- `mon_backtrace` (lines 65-84): print the header, walk the frame chain
from `read_ebp()`, return 0.  No argument-count check. -/
def mon_backtrace : Handler := fun _ st =>
  match btRun st.mem BT_FUEL st.ebp with
  | none => none
  | some evs => some (0, Event.btHeader :: evs, st)

/-- The body of the `showmappings` loop (lines 123-135): for each page
walk with the allocate flag set; on walk failure print "Page walk error!"
and stop (the command still returns 0); otherwise print the mapping if
`PTE_P` is set in the leaf entry, else "is not mapped!"; step `i` by
`PGSIZE` with 32-bit wrap-around while `i <= end`.  The iteration bound
`fuel` models non-termination: the values `i % W` repeat with period
`2^20`, so a loop that has not exited after `2^20` steps never exits
(that happens for `end` within a page of `2^32`); `none` reports it. -/
def showLoop (st : KState) (i e : Nat) : Nat → Option (List Event × KState)
  | 0 => if e < i then some ([], st) else none
  | fuel + 1 =>
    if e < i then some ([], st)
    else
      match pgdir_walk st i true with
      | none => some ([Event.walkError], st)
      | some (r, st') =>
        let pte := getPTE st' r
        let ev :=
          if pte &&& PTE_P ≠ 0 then
            Event.mapped i (pte &&& 0xFFFFF000)
              (pte &&& PTE_P != 0) (pte &&& PTE_U != 0) (pte &&& PTE_W != 0)
          else Event.notMapped i
        match showLoop st' ((i + PGSIZE) % W) e fuel with
        | none => none
        | some (evs, st'') => some (ev :: evs, st'')

/-- Iteration bound for `showLoop`, see its doc comment. -/
def SHOW_FUEL : Nat := 2 ^ 20 + 1

/-- `mon_showmappings` (lines 109-139): with other than three tokens
print the usage line and return 0; otherwise convert both arguments,
echo them, and run the loop. -/
def mon_showmappings : Handler := fun argv st =>
  match argv with
  | [_, a1, a2] =>
    let b := convert a1
    let e := convert a2
    match showLoop st b e SHOW_FUEL with
    | none => none
    | some (evs, st') => some (0, Event.gotArgs b e :: evs, st')
  | _ => some (0, [Event.usage "showmappings"], st)

/-- The mutation `setPerm` performs once it holds a walk result (lines
148-150): `*ptet &= ~0xfff; *ptet |= bits;`.  The C code performs no null
check on the walk result, so a failed walk means the null pointer is
dereferenced: `none`. -/
def setPermCore (st : KState) (va bits : Nat) : Option KState :=
  match pgdir_walk st va true with
  | none => none
  | some (r, st') => some (setPTE st' r ((getPTE st' r &&& 0xFFFFF000) ||| bits))

/-- `setPerm` (lines 141-152): with other than three tokens print the
usage line and return 0; otherwise walk (allocating) and rewrite the low
permission bits of the leaf entry, returning 0. -/
def setPerm : Handler := fun argv st =>
  match argv with
  | [_, a1, a2] =>
    match setPermCore st (convert a1) (convert a2) with
    | none => none
    | some st' => some (0, [], st')
  | _ => some (0, [Event.usage "setPerm"], st)

/-- `vvm` (lines 170-181): with other than three tokens print the usage
line and return 0; otherwise dump words from `begin` while `i < begin+n`
(both `int`, i.e. 32-bit pointer arithmetic: the end pointer is
`(begin + 4*n) % W`, and the unsigned pointer comparison gives
`(e - begin) / 4` iterations, zero when the end wrapped below `begin`,
which is also what a negative `n` produces). -/
def vvm : Handler := fun argv st =>
  match argv with
  | [_, a1, a2] =>
    let b := convert a1
    let n := convert a2
    let e := (b + 4 * n) % W
    let cnt := (e - b) / 4
    some (0, (List.range cnt).map
      (fun k => Event.dumpWord (b + 4 * k) (st.mem (b + 4 * k))), st)
  | _ => some (0, [Event.usage "vvm"], st)

/-- `vpm` (lines 154-168): with other than three tokens print the usage
line and return 0; otherwise translate the physical start address with
`KADDR` (which panics when `begin / PGSIZE ≥ npages`: `none`) and dump
words as `vvm` does, printing each word's `PADDR` (which panics when the
virtual address is below `KERNBASE`, possible only when `KERNBASE + begin`
wrapped). -/
def vpm : Handler := fun argv st =>
  match argv with
  | [_, a1, a2] =>
    let pa := convert a1
    let n := convert a2
    if st.npages ≤ pa / PGSIZE then none
    else
      let p := (KERNBASE + pa) % W
      let e := (p + 4 * n) % W
      let cnt := (e - p) / 4
      if cnt ≠ 0 ∧ p < KERNBASE then none
      else
        some (0, (List.range cnt).map
          (fun k => Event.dumpWord (p + 4 * k - KERNBASE) (st.mem (p + 4 * k))), st)
  | _ => some (0, [Event.usage "vpm"], st)

/-- The static command table (monitor.c lines 26-34): name and handler;
the description column lives in `cmdInfo` (same order). -/
def commands : List (String × Handler) :=
  [("help", mon_help),
   ("kerninfo", mon_kerninfo),
   ("backtrace", mon_backtrace),
   ("showmappings", mon_showmappings),
   ("setPerm", setPerm),
   ("vvm", vvm),
   ("vpm", vpm)]

/-! ## Dispatch and the console loop (monitor.c lines 189-245) -/

/-- `runcmd` (lines 189-226): tokenize; on "Too many arguments" print the
error and return 0; with no tokens return 0; otherwise look the first
token up in the table by exact string comparison and invoke the handler,
propagating its return value, or print "Unknown command" and return 0. -/
def runcmd (buf : List Char) (st : KState) : HResult :=
  match gettoks buf with
  | none => some (0, [Event.tooManyArgs], st)
  | some [] => some (0, [], st)
  | some (cmd :: args) =>
    match commands.find? (fun p => cmd == p.1.data) with
    | some p => p.2 (cmd :: args) st
    | none => some (0, [Event.unknownCmd cmd], st)

/-- How a run of the console loop on a finite list of `readline` results
ends: the input list was exhausted with the loop still running
(`ranOut`), a command's negative return value broke the loop (`stopped`),
or a command crashed the kernel (`crashed`). -/
inductive MonOutcome where
  | ranOut
  | stopped
  | crashed
  deriving DecidableEq, Repr

/-- The console loop `monitor` (lines 239-244), driven by a finite list
of `readline` results (`none` models a NULL read): a NULL read is
skipped, otherwise the line is dispatched and the loop breaks exactly
when the dispatch returns a negative value. -/
def monitorRun : List (Option (List Char)) → KState → MonOutcome × KState
  | [], st => (MonOutcome.ranOut, st)
  | none :: rest, st => monitorRun rest st
  | some buf :: rest, st =>
    match runcmd buf st with
    | none => (MonOutcome.crashed, st)
    | some (r, _, st') =>
      if r < 0 then (MonOutcome.stopped, st') else monitorRun rest st'

/-! ## Reference semantics and concrete states used by the theorems -/

/-- The frame records claim C9 describes: the `j`-th frame pointer of the
chain is `mem^[j] e0`; its record carries that frame address, the return
address one word above it, and the five words above that, followed by the
symbol line printed for the return address. -/
def btSpec (mem : Nat → Nat) (e0 k : Nat) : List Event :=
  (List.range k).flatMap fun j =>
    [Event.frame (mem^[j] e0) (mem ((mem^[j] e0 + 4) % W))
       [mem ((mem^[j] e0 + 8) % W), mem ((mem^[j] e0 + 12) % W),
        mem ((mem^[j] e0 + 16) % W), mem ((mem^[j] e0 + 20) % W),
        mem ((mem^[j] e0 + 24) % W)],
     Event.symLine (mem ((mem^[j] e0 + 4) % W))]

/-- An address space with nothing mapped, no free page, zeroed memory. -/
def stEx : KState := ⟨fun _ => none, 0, fun _ => 0, 0, 0⟩

/-- An address space with nothing mapped and exactly one free page. -/
def st1 : KState := ⟨fun _ => none, 1, fun _ => 0, 0, 0⟩

/-- The state `st1` after the walk allocated the page table for
directory slot 0: the last free page is consumed and the directory
entry written. -/
def st1' : KState :=
  { st1 with
    pgdir := fun j => if j = 0 then some (fun _ => 0) else st1.pgdir j,
    freePages := 0 }

/-- A stack whose saved-frame-pointer chain is 100 → 200 → 300 → 0,
with every other word equal to 7. -/
def mem3 : Nat → Nat := fun a =>
  if a = 100 then 200 else if a = 200 then 300 else if a = 300 then 0 else 7

/-- A state whose current frame pointer starts the `mem3` chain. -/
def stBt : KState := ⟨fun _ => none, 0, mem3, 100, 0⟩

/-- A page table whose entry 1 maps frame `0x5` with all permission
bits clear. -/
def ptEx : Nat → Nat := fun t => if t = 1 then 0x5000 else 0

/-- An address space whose directory slot 0 holds `ptEx`. -/
def stMap : KState := ⟨fun j => if j = 0 then some ptEx else none, 0, fun _ => 0, 0, 0⟩

/-! ## Arithmetic helper lemmas -/

lemma wrap_mul_add (a d : Int) (b : Nat) :
    (a % (W : Int) * b + d) % (W : Int) = (a * b + d) % (W : Int) := by
  conv_lhs =>
    rw [Int.add_emod, Int.mul_emod, Int.emod_emod_of_dvd a dvd_rfl,
      ← Int.mul_emod, ← Int.add_emod]

lemma toNat_emod_cast (n m : Nat) : (((n : Int)) % ((m : Int))).toNat = n % m := by
  rw [← Int.natCast_mod, Int.toNat_natCast]

lemma convertLoop_dec (s : List Char) : ∀ a : Nat,
    (∀ c ∈ s, 48 ≤ c.toNat ∧ c.toNat ≤ 57) →
    convertLoop 10 ((a : Int) % (W : Int)) s
      = ((s.foldl (fun x c => 10 * x + (c.toNat - 48)) a : Nat) : Int) % (W : Int) := by
  induction s with
  | nil => intro a _; simp [convertLoop]
  | cons c cs ih =>
    intro a h
    obtain ⟨h1, h2⟩ := h c (List.mem_cons_self c cs)
    have hcs : ∀ x ∈ cs, 48 ≤ x.toNat ∧ x.toNat ≤ 57 :=
      fun x hx => h x (List.mem_cons_of_mem _ hx)
    have hstep : (a : Int) * ((10 : Nat) : Int) + digitStep c
        = ((10 * a + (c.toNat - 48) : Nat) : Int) := by
      simp only [digitStep, if_pos h2]
      push_cast [h1]
      ring
    simp only [convertLoop, List.foldl_cons]
    rw [wrap_mul_add, hstep]
    exact ih _ hcs

lemma convertLoop_hex (s : List Char) : ∀ a : Nat,
    (∀ c ∈ s, (48 ≤ c.toNat ∧ c.toNat ≤ 57) ∨ (97 ≤ c.toNat ∧ c.toNat ≤ 102)) →
    convertLoop 16 ((a : Int) % (W : Int)) s
      = ((s.foldl (fun x c => 16 * x + hexDigit c) a : Nat) : Int) % (W : Int) := by
  induction s with
  | nil => intro a _; simp [convertLoop]
  | cons c cs ih =>
    intro a h
    have hcs : ∀ x ∈ cs, (48 ≤ x.toNat ∧ x.toNat ≤ 57) ∨ (97 ≤ x.toNat ∧ x.toNat ≤ 102) :=
      fun x hx => h x (List.mem_cons_of_mem _ hx)
    have hstep : (a : Int) * ((16 : Nat) : Int) + digitStep c
        = ((16 * a + hexDigit c : Nat) : Int) := by
      rcases h c (List.mem_cons_self c cs) with ⟨h1, h2⟩ | ⟨h1, h2⟩
      · simp only [digitStep, hexDigit, if_pos h2]
        push_cast [h1]
        ring
      · have h3 : ¬ c.toNat ≤ 57 := by omega
        simp only [digitStep, hexDigit, if_neg h3]
        push_cast [h1]
        ring
    simp only [convertLoop, List.foldl_cons]
    rw [wrap_mul_add, hstep]
    exact ih _ hcs

/-! ## Claims C4 and C5: the numeral parser -/

/-- C4 counterexample: the claim predicts that the character `'!'`
(code 33, below `'0'`), not being a decimal digit, contributes
`char - 'a' + 10` to the accumulation; `convert` actually takes the
digit branch for it because the code's test is `*c <= '9'`. -/
theorem claim_c4_cex :
    ¬ convert ['!']
        = ((0 * 10 + (('!'.toNat : Int) - 97 + 10)) % (W : Int)).toNat := by
  decide

/-- C4 (amended): in both bases, an input character whose code is
greater than `'9'` contributes `char - 'a' + 10` to the accumulation
`result = result*base + digit`, and a character whose code is at most
`'9'` — including punctuation below `'0'` — contributes `char - '0'`;
in particular `convert "!"` is `('!' - '0') mod 2^32`. -/
theorem claim_c4 :
    (∀ (base : Nat) (res : Int) (c : Char) (cs : List Char), 57 < c.toNat →
        convertLoop base res (c :: cs)
          = convertLoop base ((res * base + ((c.toNat : Int) - 97 + 10)) % (W : Int)) cs)
  ∧ (∀ (base : Nat) (res : Int) (c : Char) (cs : List Char), c.toNat ≤ 57 →
        convertLoop base res (c :: cs)
          = convertLoop base ((res * base + ((c.toNat : Int) - 48)) % (W : Int)) cs)
  ∧ convert ['!'] = ((('!'.toNat : Int) - 48) % (W : Int)).toNat := by
  refine ⟨?_, ?_, by decide⟩
  · intro base res c cs h
    have h' : ¬ c.toNat ≤ 57 := by omega
    simp only [convertLoop, digitStep, if_neg h']
  · intro base res c cs h
    simp only [convertLoop, digitStep, if_pos h]

/-- Witness for C4 at the concrete characters `'z'` and `'%'`. -/
theorem claim_c4_witness :
    (57 < 'z'.toNat ∧
      convertLoop 10 0 ['z']
        = convertLoop 10 ((0 * 10 + (('z'.toNat : Int) - 97 + 10)) % (W : Int)) [])
  ∧ ('%'.toNat ≤ 57 ∧
      convertLoop 10 0 ['%']
        = convertLoop 10 ((0 * 10 + (('%'.toNat : Int) - 48)) % (W : Int)) []) :=
  ⟨⟨by decide, claim_c4.1 10 0 'z' [] (by decide)⟩,
   ⟨by decide, claim_c4.2.1 10 0 '%' [] (by decide)⟩⟩

/-- C5: a token of decimal digits parses to its decimal value and a
`0x`-prefixed token of decimal digits and lowercase hex letters parses
to its hexadecimal value, both modulo the 32-bit machine word. -/
theorem claim_c5 :
    (∀ s : List Char, (∀ c ∈ s, 48 ≤ c.toNat ∧ c.toNat ≤ 57) →
        convert s = decValue s % W)
  ∧ (∀ s : List Char,
        (∀ c ∈ s, (48 ≤ c.toNat ∧ c.toNat ≤ 57) ∨ (97 ≤ c.toNat ∧ c.toNat ≤ 102)) →
        convert ('0' :: 'x' :: s) = hexValue s % W) := by
  constructor
  · intro s h
    have hm : convert s = (convertLoop 10 0 s).toNat := by
      rw [convert.eq_def]
      split
      · exfalso
        exact absurd (h 'x' (by simp)).2 (by decide)
      · rfl
    rw [hm, show (0 : Int) = ((0 : Nat) : Int) % (W : Int) by norm_num [W],
      convertLoop_dec s 0 h]
    exact toNat_emod_cast _ _
  · intro s h
    have hm : convert ('0' :: 'x' :: s) = (convertLoop 16 0 s).toNat := rfl
    rw [hm, show (0 : Int) = ((0 : Nat) : Int) % (W : Int) by norm_num [W],
      convertLoop_hex s 0 h]
    exact toNat_emod_cast _ _

/-- Witness for C5 at the tokens `"42"` and `"0xf"`. -/
theorem claim_c5_witness :
    ((∀ c ∈ ['4', '2'], 48 ≤ c.toNat ∧ c.toNat ≤ 57) ∧
      convert ['4', '2'] = decValue ['4', '2'] % W)
  ∧ ((∀ c ∈ ['f'], (48 ≤ c.toNat ∧ c.toNat ≤ 57) ∨ (97 ≤ c.toNat ∧ c.toNat ≤ 102)) ∧
      convert ['0', 'x', 'f'] = hexValue ['f'] % W) :=
  ⟨⟨by decide, claim_c5.1 ['4', '2'] (by decide)⟩,
   ⟨by decide, claim_c5.2 ['f'] (by decide)⟩⟩

/-! ## Claim C6: the tokenizer -/

lemma wsTokensF_all_ws : ∀ (fuel : Nat) (buf : List Char),
    (∀ c ∈ buf, isWS c) → wsTokensF fuel buf = [] := by
  intro fuel
  induction fuel with
  | zero => intro buf _; cases buf <;> simp [wsTokensF]
  | succ fuel ih =>
    intro buf h
    cases buf with
    | nil => simp [wsTokensF]
    | cons c rest =>
      have hc : isWS c := h c (List.mem_cons_self c rest)
      simp only [wsTokensF, hc, if_true]
      exact ih rest fun x hx => h x (List.mem_cons_of_mem _ hx)

lemma tokLoop_spec : ∀ (fuel : Nat) (buf : List Char) (argc : Nat),
    buf.length ≤ fuel → argc ≤ MAXARGS - 1 →
    tokLoop fuel buf argc =
      if argc + (wsTokensF fuel buf).length ≤ MAXARGS - 1 then some (wsTokensF fuel buf)
      else none := by
  intro fuel
  induction fuel with
  | zero =>
    intro buf argc hl ha
    have hb : buf = [] := List.length_eq_zero.mp (Nat.le_zero.mp hl)
    subst hb
    simp [tokLoop, wsTokensF, ha]
  | succ fuel ih =>
    intro buf argc hl ha
    cases buf with
    | nil => simp [tokLoop, wsTokensF, ha]
    | cons c rest =>
      have hrest : rest.length ≤ fuel := by simpa using hl
      by_cases hws : isWS c
      · simp only [tokLoop, wsTokensF, hws, if_true]
        exact ih rest argc hrest ha
      · rw [Bool.not_eq_true] at hws
        simp only [tokLoop, wsTokensF, hws, Bool.false_eq_true, if_false]
        by_cases hargc : argc = MAXARGS - 1
        · simp only [hargc, if_true]
          rw [if_neg]
          simp only [List.length_cons, MAXARGS]
          omega
        · have hdw : (c :: rest).dropWhile (fun x => !isWS x)
              = rest.dropWhile (fun x => !isWS x) :=
            List.dropWhile_cons_of_pos (by simp [hws])
          have hlen : ((c :: rest).dropWhile (fun x => !isWS x)).length ≤ fuel := by
            rw [hdw]
            exact le_trans ((List.dropWhile_sublist _).length_le) hrest
          have ih' := ih _ (argc + 1) hlen (by simp only [MAXARGS] at hargc ha ⊢; omega)
          simp only [hargc, if_false]
          rw [ih']
          by_cases hc :
              argc + 1 + (wsTokensF fuel ((c :: rest).dropWhile (fun x => !isWS x))).length
                ≤ MAXARGS - 1
          · rw [if_pos hc, if_pos (by simp only [List.length_cons]; omega)]
          · rw [if_neg hc, if_neg (by simp only [List.length_cons]; omega)]

/-- C6: the tokenizer splits on tab, carriage return, newline and space:
`"a  b\tc"` yields exactly `["a","b","c"]`; an empty or all-whitespace
input yields zero tokens; and an input with at least `MAXARGS` tokens
makes `runcmd` report "Too many arguments", dispatch nothing (zero
tokens, never a partial list) and return status 0. -/
theorem claim_c6 :
    gettoks "a  b\tc".data = some ["a".data, "b".data, "c".data]
  ∧ (gettoks [] = some []
      ∧ ∀ buf : List Char, (∀ c ∈ buf, isWS c) → gettoks buf = some [])
  ∧ (∀ (buf : List Char) (st : KState), MAXARGS ≤ (wsTokens buf).length →
      gettoks buf = none ∧ runcmd buf st = some (0, [Event.tooManyArgs], st)) := by
  refine ⟨by decide, ⟨by decide, ?_⟩, ?_⟩
  · intro buf h
    have := tokLoop_spec buf.length buf 0 le_rfl (by simp [MAXARGS])
    rw [wsTokensF_all_ws _ _ h] at this
    simpa [gettoks, MAXARGS] using this
  · intro buf st h
    have hnone : gettoks buf = none := by
      have := tokLoop_spec buf.length buf 0 le_rfl (by simp [MAXARGS])
      rw [gettoks, this, if_neg]
      simp only [MAXARGS] at h ⊢
      have hw : (wsTokensF buf.length buf).length = (wsTokens buf).length := rfl
      omega
    exact ⟨hnone, by simp [runcmd, hnone]⟩

/-- Witness for C6 at a 16-token input. -/
theorem claim_c6_witness :
    MAXARGS ≤ (wsTokens "a b c d e f g h i j k l m n o p".data).length
  ∧ runcmd "a b c d e f g h i j k l m n o p".data stEx
      = some (0, [Event.tooManyArgs], stEx) :=
  ⟨by decide,
   (claim_c6.2.2 "a b c d e f g h i j k l m n o p".data stEx (by decide)).2⟩

/-! ## Claims C7 and C10: dispatch status and the console loop -/

lemma mon_help_ret (argv : List (List Char)) (st : KState) :
    mon_help argv st = none ∨ ∃ o st', mon_help argv st = some (0, o, st') :=
  Or.inr ⟨_, _, rfl⟩

lemma mon_kerninfo_ret (argv : List (List Char)) (st : KState) :
    mon_kerninfo argv st = none ∨ ∃ o st', mon_kerninfo argv st = some (0, o, st') :=
  Or.inr ⟨_, _, rfl⟩

lemma mon_backtrace_ret (argv : List (List Char)) (st : KState) :
    mon_backtrace argv st = none ∨ ∃ o st', mon_backtrace argv st = some (0, o, st') := by
  rcases h : btRun st.mem BT_FUEL st.ebp with _ | evs
  · exact Or.inl (by simp [mon_backtrace, h])
  · exact Or.inr ⟨Event.btHeader :: evs, st, by simp [mon_backtrace, h]⟩

lemma mon_showmappings_ret (argv : List (List Char)) (st : KState) :
    mon_showmappings argv st = none
      ∨ ∃ o st', mon_showmappings argv st = some (0, o, st') := by
  rcases argv with _ | ⟨a0, _ | ⟨a1, _ | ⟨a2, _ | ⟨a3, rest⟩⟩⟩⟩
  · exact Or.inr ⟨_, _, rfl⟩
  · exact Or.inr ⟨_, _, rfl⟩
  · exact Or.inr ⟨_, _, rfl⟩
  · rcases h : showLoop st (convert a1) (convert a2) SHOW_FUEL with _ | ⟨evs, st'⟩
    · exact Or.inl (by simp [mon_showmappings, h])
    · exact Or.inr ⟨Event.gotArgs (convert a1) (convert a2) :: evs, st',
        by simp [mon_showmappings, h]⟩
  · exact Or.inr ⟨_, _, rfl⟩

lemma setPerm_ret (argv : List (List Char)) (st : KState) :
    setPerm argv st = none ∨ ∃ o st', setPerm argv st = some (0, o, st') := by
  rcases argv with _ | ⟨a0, _ | ⟨a1, _ | ⟨a2, _ | ⟨a3, rest⟩⟩⟩⟩
  · exact Or.inr ⟨_, _, rfl⟩
  · exact Or.inr ⟨_, _, rfl⟩
  · exact Or.inr ⟨_, _, rfl⟩
  · rcases h : setPermCore st (convert a1) (convert a2) with _ | st'
    · exact Or.inl (by simp [setPerm, h])
    · exact Or.inr ⟨[], st', by simp [setPerm, h]⟩
  · exact Or.inr ⟨_, _, rfl⟩

lemma vvm_ret (argv : List (List Char)) (st : KState) :
    vvm argv st = none ∨ ∃ o st', vvm argv st = some (0, o, st') := by
  rcases argv with _ | ⟨a0, _ | ⟨a1, _ | ⟨a2, _ | ⟨a3, rest⟩⟩⟩⟩ <;>
    exact Or.inr ⟨_, _, rfl⟩

lemma vpm_ret (argv : List (List Char)) (st : KState) :
    vpm argv st = none ∨ ∃ o st', vpm argv st = some (0, o, st') := by
  rcases argv with _ | ⟨a0, _ | ⟨a1, _ | ⟨a2, _ | ⟨a3, rest⟩⟩⟩⟩
  · exact Or.inr ⟨_, _, rfl⟩
  · exact Or.inr ⟨_, _, rfl⟩
  · exact Or.inr ⟨_, _, rfl⟩
  · simp only [vpm]
    split_ifs with h1 h2
    · exact Or.inl rfl
    · exact Or.inl rfl
    · exact Or.inr ⟨_, _, rfl⟩
  · exact Or.inr ⟨_, _, rfl⟩

lemma commands_ret : ∀ p ∈ commands, ∀ (argv : List (List Char)) (st : KState),
    p.2 argv st = none ∨ ∃ o st', p.2 argv st = some (0, o, st') := by
  intro p hp
  simp only [commands, List.mem_cons, List.not_mem_nil, or_false] at hp
  rcases hp with rfl | rfl | rfl | rfl | rfl | rfl | rfl
  · exact mon_help_ret
  · exact mon_kerninfo_ret
  · exact mon_backtrace_ret
  · exact mon_showmappings_ret
  · exact setPerm_ret
  · exact vvm_ret
  · exact vpm_ret

lemma runcmd_ret (buf : List Char) (st : KState) :
    runcmd buf st = none ∨ ∃ o st', runcmd buf st = some (0, o, st') := by
  rcases h : gettoks buf with _ | ts
  · exact Or.inr ⟨[Event.tooManyArgs], st, by simp [runcmd, h]⟩
  · rcases ts with _ | ⟨cmd, args⟩
    · exact Or.inr ⟨[], st, by simp [runcmd, h]⟩
    · rcases hf : commands.find? (fun p => cmd == p.1.data) with _ | p
      · exact Or.inr ⟨[Event.unknownCmd cmd], st, by simp [runcmd, h, hf]⟩
      · have hp : p ∈ commands := List.mem_of_find?_eq_some hf
        have := commands_ret p hp (cmd :: args) st
        rcases this with h0 | ⟨o, st', h0⟩
        · exact Or.inl (by simp [runcmd, h, hf, h0])
        · exact Or.inr ⟨o, st', by simp [runcmd, h, hf, h0]⟩

lemma runcmd_status {buf : List Char} {st : KState} {r : Int} {o : List Event}
    {st' : KState} (h : runcmd buf st = some (r, o, st')) : r = 0 := by
  rcases runcmd_ret buf st with h0 | ⟨o', st'', h0⟩ <;> rw [h0] at h
  · exact absurd h (by simp)
  · exact (Prod.mk.injEq _ _ _ _ ▸ Option.some.injEq _ _ ▸ h).1.symm

lemma monitorRun_ne_stopped : ∀ (bufs : List (Option (List Char))) (st : KState),
    (monitorRun bufs st).1 ≠ MonOutcome.stopped := by
  intro bufs
  induction bufs with
  | nil => intro st; simp [monitorRun]
  | cons b rest ih =>
    intro st
    cases b with
    | none => simpa [monitorRun] using ih st
    | some buf =>
      simp only [monitorRun]
      rcases h : runcmd buf st with _ | ⟨r, o, st'⟩
      · simp
      · have hr : r = 0 := runcmd_status h
        subst hr
        simpa using ih st'

/-- C7: the console loop terminates exactly when a dispatched command
returns a negative status; a null line read is skipped and the read
retried; a zero-or-positive status continues the loop; an empty token
list and an unknown command both yield status 0 and continue. -/
theorem claim_c7 (bufs : List (Option (List Char))) (st : KState) (buf : List Char) :
    ((monitorRun bufs st).1 = MonOutcome.stopped ↔
      ∃ pre b rest r o st', bufs = pre ++ some b :: rest ∧
        (monitorRun pre st).1 = MonOutcome.ranOut ∧
        runcmd b (monitorRun pre st).2 = some (r, o, st') ∧ r < 0)
  ∧ monitorRun (none :: bufs) st = monitorRun bufs st
  ∧ (∀ r o st', runcmd buf st = some (r, o, st') → r < 0 →
      monitorRun (some buf :: bufs) st = (MonOutcome.stopped, st'))
  ∧ (∀ r o st', runcmd buf st = some (r, o, st') → 0 ≤ r →
      monitorRun (some buf :: bufs) st = monitorRun bufs st')
  ∧ (gettoks buf = some [] → runcmd buf st = some (0, [], st))
  ∧ (∀ cmd args, gettoks buf = some (cmd :: args) →
      commands.find? (fun p => cmd == p.1.data) = none →
      runcmd buf st = some (0, [Event.unknownCmd cmd], st)) := by
  refine ⟨⟨fun h => absurd h (monitorRun_ne_stopped bufs st), ?_⟩, rfl, ?_, ?_, ?_, ?_⟩
  · rintro ⟨pre, b, rest, r, o, st', -, -, hrun, hneg⟩
    exact absurd hneg (by rw [runcmd_status hrun]; omega)
  · intro r o st' hrun hneg
    simp only [monitorRun, hrun]
    rw [if_pos hneg]
  · intro r o st' hrun hnn
    simp only [monitorRun, hrun]
    rw [if_neg (by omega)]
  · intro h
    simp [runcmd, h]
  · intro cmd args h hf
    simp [runcmd, h, hf]

/-- Witness for C7 at an unknown command and a null read. -/
theorem claim_c7_witness :
    gettoks "fly".data = some ["fly".data]
  ∧ runcmd "fly".data stEx = some (0, [Event.unknownCmd "fly".data], stEx)
  ∧ monitorRun [none] stEx = monitorRun [] stEx :=
  ⟨by decide,
   (claim_c7 [] stEx "fly".data).2.2.2.2.2 "fly".data [] (by decide) rfl,
   (claim_c7 [] stEx "fly".data).2.1⟩

/-- C10: every handler of the static command table either crashes or
returns 0; dispatch of an empty buffer returns 0 and dispatch never
returns a negative status; hence the console loop never stops through
command dispatch. -/
theorem claim_c10 (buf : List Char) (st : KState) (bufs : List (Option (List Char))) :
    (∀ p ∈ commands, ∀ (argv : List (List Char)) (s : KState),
        p.2 argv s = none ∨ ∃ o s', p.2 argv s = some (0, o, s'))
  ∧ (runcmd buf st = none ∨ ∃ o st', runcmd buf st = some (0, o, st'))
  ∧ (gettoks buf = some [] → runcmd buf st = some (0, [], st))
  ∧ (monitorRun bufs st).1 ≠ MonOutcome.stopped := by
  refine ⟨commands_ret, runcmd_ret buf st, ?_, monitorRun_ne_stopped bufs st⟩
  intro h
  simp [runcmd, h]

/-- Witness for C10 at the `help` entry of the table and a concrete
dispatch. -/
theorem claim_c10_witness :
    ("help", mon_help) ∈ commands
  ∧ (mon_help [] stEx = none ∨ ∃ o s', mon_help [] stEx = some (0, o, s'))
  ∧ (monitorRun [some "help".data] stEx).1 ≠ MonOutcome.stopped :=
  ⟨List.mem_cons_self _ _,
   (claim_c10 [] stEx []).1 ("help", mon_help) (List.mem_cons_self _ _) [] stEx,
   (claim_c10 [] stEx [some "help".data]).2.2.2⟩

/-! ## Claim C8: argument-count checking -/

/-- C8 counterexample: `help` is listed with argument count 1, yet
invoking it as `"help x"` (count 2) neither prints a usage string nor
skips the action: the handler runs and prints the full command table. -/
theorem claim_c8_cex :
    runcmd "help x".data stEx
      = some (0, cmdInfo.map (fun p => Event.helpLine p.1 p.2), stEx)
  ∧ ((cmdInfo.map (fun p => Event.helpLine p.1 p.2)).all
      (fun e => match e with | Event.usage _ => false | _ => true)) = true
  ∧ cmdInfo.map (fun p => Event.helpLine p.1 p.2) ≠ [] := by
  refine ⟨rfl, by decide, by decide⟩

/-- C8 (amended): the four commands listed with argument count 3
(`showmappings`, `setPerm`, `vvm`, `vpm`) print their usage string and
return 0 without touching the state when invoked with any other argument
count; the three commands listed with count 1 (`help`, `kerninfo`,
`backtrace`) perform no argument-count check and execute their action
whatever the count. -/
theorem claim_c8 (st : KState) (argv : List (List Char)) :
    (argv.length ≠ 3 →
        mon_showmappings argv st = some (0, [Event.usage "showmappings"], st)
      ∧ setPerm argv st = some (0, [Event.usage "setPerm"], st)
      ∧ vvm argv st = some (0, [Event.usage "vvm"], st)
      ∧ vpm argv st = some (0, [Event.usage "vpm"], st))
  ∧ mon_help argv st = some (0, cmdInfo.map (fun p => Event.helpLine p.1 p.2), st)
  ∧ mon_kerninfo argv st = some (0, [Event.kerninfoOut], st)
  ∧ (mon_backtrace argv st = none
      ∨ ∃ o, mon_backtrace argv st = some (0, o, st)) := by
  refine ⟨?_, rfl, rfl, ?_⟩
  · intro h
    rcases argv with _ | ⟨a0, _ | ⟨a1, _ | ⟨a2, _ | ⟨a3, rest⟩⟩⟩⟩
    · exact ⟨rfl, rfl, rfl, rfl⟩
    · exact ⟨rfl, rfl, rfl, rfl⟩
    · exact ⟨rfl, rfl, rfl, rfl⟩
    · exact absurd rfl h
    · exact ⟨rfl, rfl, rfl, rfl⟩
  · rcases h : btRun st.mem BT_FUEL st.ebp with _ | evs
    · exact Or.inl (by simp [mon_backtrace, h])
    · exact Or.inr ⟨Event.btHeader :: evs, by simp [mon_backtrace, h]⟩

/-- Witness for C8 at argument count 2. -/
theorem claim_c8_witness :
    (["help".data, "x".data].length ≠ 3)
  ∧ mon_showmappings ["help".data, "x".data] stEx
      = some (0, [Event.usage "showmappings"], stEx)
  ∧ setPerm ["help".data, "x".data] stEx = some (0, [Event.usage "setPerm"], stEx) :=
  ⟨by decide,
   ((claim_c8 stEx ["help".data, "x".data]).1 (by decide)).1,
   ((claim_c8 stEx ["help".data, "x".data]).1 (by decide)).2.1⟩

/-! ## Claim C9: the stack unwinder -/

lemma btSpec_zero (mem : Nat → Nat) (e0 : Nat) : btSpec mem e0 0 = [] := rfl

lemma btSpec_succ (mem : Nat → Nat) (e0 k : Nat) :
    btSpec mem e0 (k + 1) =
      Event.frame e0 (mem ((e0 + 4) % W))
          [mem ((e0 + 8) % W), mem ((e0 + 12) % W), mem ((e0 + 16) % W),
           mem ((e0 + 20) % W), mem ((e0 + 24) % W)] ::
        Event.symLine (mem ((e0 + 4) % W)) :: btSpec mem (mem e0) k := by
  simp only [btSpec, List.range_succ_eq_map, List.flatMap_cons, List.flatMap_map,
    Function.iterate_zero_apply, Function.iterate_succ_apply, List.cons_append,
    List.nil_append]

lemma btSpec_length (mem : Nat → Nat) : ∀ (k : Nat) (e0 : Nat),
    (btSpec mem e0 k).length = 2 * k := by
  intro k
  induction k with
  | zero => intro e0; rfl
  | succ k ih =>
    intro e0
    rw [btSpec_succ, List.length_cons, List.length_cons, ih (mem e0)]
    omega

lemma btRun_spec (mem : Nat → Nat) : ∀ (k fuel e0 : Nat),
    k ≤ fuel → mem^[k] e0 = 0 → (∀ j < k, mem^[j] e0 ≠ 0) →
    btRun mem fuel e0 = some (btSpec mem e0 k) := by
  intro k
  induction k with
  | zero =>
    intro fuel e0 _ h0 _
    have he : e0 = 0 := by simpa using h0
    subst he
    cases fuel <;> rfl
  | succ k ih =>
    intro fuel e0 hfuel h0 hne
    have he0 : e0 ≠ 0 := by simpa using hne 0 (Nat.succ_pos k)
    obtain ⟨f, rfl⟩ : ∃ f, fuel = f + 1 := ⟨fuel - 1, by omega⟩
    obtain ⟨e, rfl⟩ : ∃ e, e0 = e + 1 := ⟨e0 - 1, by omega⟩
    have h0' : mem^[k] (mem (e + 1)) = 0 := by
      rw [← Function.iterate_succ_apply]; exact h0
    have hne' : ∀ j < k, mem^[j] (mem (e + 1)) ≠ 0 := by
      intro j hj
      rw [← Function.iterate_succ_apply]
      exact hne (j + 1) (by omega)
    have ih' := ih f (mem (e + 1)) (by omega) h0' hne'
    simp only [btRun, ih', btSpec_succ]

/-- C9: if the saved-frame-pointer chain from the initial frame pointer
reaches the zero sentinel after exactly `k` frames, `backtrace`
terminates and emits exactly `k` frame records, innermost first, each
carrying the frame address, the return address read one word (4 bytes)
above the frame pointer, and the five words above that as arguments. -/
theorem claim_c9 (st : KState) (argv : List (List Char)) (k : Nat)
    (hk : k ≤ BT_FUEL)
    (h0 : st.mem^[k] st.ebp = 0)
    (hne : ∀ j < k, st.mem^[j] st.ebp ≠ 0) :
    mon_backtrace argv st = some (0, Event.btHeader :: btSpec st.mem st.ebp k, st)
  ∧ (btSpec st.mem st.ebp k).length = 2 * k := by
  have h := btRun_spec st.mem k BT_FUEL st.ebp hk h0 hne
  exact ⟨by simp [mon_backtrace, h], btSpec_length st.mem k st.ebp⟩

/-- Witness for C9 on the depth-3 chain 100 → 200 → 300 → 0. -/
theorem claim_c9_witness :
    (3 ≤ BT_FUEL ∧ mem3^[3] 100 = 0 ∧ ∀ j < 3, mem3^[j] 100 ≠ 0)
  ∧ mon_backtrace [] stBt = some (0, Event.btHeader :: btSpec mem3 100 3, stBt)
  ∧ (btSpec mem3 100 3).length = 2 * 3 :=
  ⟨⟨by decide, by decide, by decide⟩,
   (claim_c9 stBt [] 3 (by decide) (by decide) (by decide)).1,
   (claim_c9 stBt [] 3 (by decide) (by decide) (by decide)).2⟩

/-! ## Bit-level lemmas about page-table entries -/

lemma and_two_pow_eq (x i : Nat) : x &&& 2 ^ i = if x.testBit i then 2 ^ i else 0 := by
  apply Nat.eq_of_testBit_eq
  intro j
  rw [Nat.testBit_and]
  by_cases h : i = j
  · subst h
    cases hx : x.testBit i
    · simp [hx]
    · simp [hx, Nat.testBit_two_pow]
  · cases hx : x.testBit i <;> simp [hx, Nat.testBit_two_pow, h]

lemma mul_pow_lor_eq_add {n : Nat} (q b : Nat) (hb : b < 2 ^ n) :
    2 ^ n * q ||| b = 2 ^ n * q + b := by
  symm
  apply Nat.eq_of_testBit_eq
  intro j
  rw [Nat.testBit_or, Nat.testBit_mul_pow_two_add q hb j, Nat.testBit_mul_pow_two]
  by_cases h : j < n
  · rw [if_pos h]
    simp [Nat.not_le.mpr h]
  · rw [if_neg h]
    have hb' : b.testBit j = false :=
      Nat.testBit_lt_two_pow
        (lt_of_lt_of_le hb (Nat.pow_le_pow_right (by norm_num) (by omega)))
    simp [hb', Nat.not_lt.mp h]

lemma and_mask_eq_div_mul (a : Nat) (ha : a < W) :
    a &&& 0xFFFFF000 = a / 4096 * 4096 := by
  have hm : (0xFFFFF000 : Nat) = 2 ^ 12 * (2 ^ 20 - 1) := by norm_num
  have hr : a / 4096 * 4096 = 2 ^ 12 * (a / 2 ^ 12) := by
    rw [show (4096 : Nat) = 2 ^ 12 by norm_num]
    ring
  apply Nat.eq_of_testBit_eq
  intro j
  rw [Nat.testBit_and, hm, hr, Nat.testBit_mul_pow_two, Nat.testBit_mul_pow_two,
    Nat.testBit_two_pow_sub_one]
  have hdiv : (a / 2 ^ 12).testBit (j - 12) = a.testBit (12 + (j - 12)) := by
    rw [← Nat.shiftRight_eq_div_pow, Nat.testBit_shiftRight]
  rw [hdiv]
  by_cases h12 : 12 ≤ j
  · rw [show 12 + (j - 12) = j by omega]
    by_cases h32 : j < 32
    · simp [h12, show j - 12 < 20 by omega]
    · have hz : a.testBit j = false :=
        Nat.testBit_lt_two_pow
          (lt_of_lt_of_le ha (by
            rw [show W = 2 ^ 32 from rfl]
            exact Nat.pow_le_pow_right (by norm_num) (by omega)))
      simp [hz, show ¬ (j - 12 < 20) by omega]
  · simp [h12]

lemma flags_low (q b i : Nat) (hb : b < 4096) (hi : i < 12) :
    (q * 4096 + b) &&& 2 ^ i = b &&& 2 ^ i := by
  rw [and_two_pow_eq, and_two_pow_eq]
  have hqb : (q * 4096 + b).testBit i = b.testBit i := by
    rw [show q * 4096 = 2 ^ 12 * q by rw [show (4096 : Nat) = 2 ^ 12 by norm_num]; ring,
      Nat.testBit_mul_pow_two_add q (show b < 2 ^ 12 by norm_num; omega) i, if_pos hi]
  rw [hqb]

/-! ## Walk and loop helper lemmas -/

lemma pgdir_walk_present {st : KState} {va : Nat} {pt : Nat → Nat} (create : Bool)
    (h : st.pgdir (PDX va) = some pt) :
    pgdir_walk st va create = some ((PDX va, PTX va), st) := by
  simp [pgdir_walk, h]

lemma showLoop_stop (st : KState) (i e fuel : Nat) (h : e < i) :
    showLoop st i e fuel = some ([], st) := by
  cases fuel <;> simp [showLoop, h]

lemma showLoop_single_not (st st' : KState) (va : Nat) (r : Nat × Nat)
    (hva : va + PGSIZE < W)
    (hw : pgdir_walk st va true = some (r, st'))
    (hp : getPTE st' r &&& PTE_P = 0) :
    showLoop st va va SHOW_FUEL = some ([Event.notMapped va], st') := by
  rw [show SHOW_FUEL = 2 ^ 20 + 1 from rfl]
  rw [showLoop, if_neg (lt_irrefl va), hw]
  simp only [hp, ne_eq, not_true_eq_false, if_neg, ite_false, not_false_eq_true]
  rw [show (va + PGSIZE) % W = va + PGSIZE from Nat.mod_eq_of_lt hva,
    showLoop_stop st' (va + PGSIZE) va _ (by simp [PGSIZE])]

lemma showLoop_single_mapped (st st' : KState) (va : Nat) (r : Nat × Nat)
    (hva : va + PGSIZE < W)
    (hw : pgdir_walk st va true = some (r, st'))
    (hp : getPTE st' r &&& PTE_P ≠ 0) :
    showLoop st va va SHOW_FUEL =
      some ([Event.mapped va (getPTE st' r &&& 0xFFFFF000)
              (getPTE st' r &&& PTE_P != 0) (getPTE st' r &&& PTE_U != 0)
              (getPTE st' r &&& PTE_W != 0)], st') := by
  rw [show SHOW_FUEL = 2 ^ 20 + 1 from rfl]
  rw [showLoop, if_neg (lt_irrefl va), hw]
  simp only [hp, ne_eq, not_false_eq_true, if_pos, ite_true]
  rw [show (va + PGSIZE) % W = va + PGSIZE from Nat.mod_eq_of_lt hva,
    showLoop_stop st' (va + PGSIZE) va _ (by simp [PGSIZE])]

/-! ## Claims C1, C2, C3: the address-space inspector and editor -/

/-- C1 counterexample: against an address space with no mapping at
`0x1000` (directory slot empty, one free page), the end-to-end command
`"showmappings 0x1000 0x1000"` prints "not mapped" — but it also mutates
the page tables: the walk is invoked with the allocate flag set, so the
empty directory entry for the page is written. -/
theorem claim_c1_cex :
    runcmd "showmappings 0x1000 0x1000".data st1
      = some (0, [Event.gotArgs 4096 4096, Event.notMapped 4096], st1')
  ∧ st1.pgdir (PDX 4096) = none
  ∧ st1'.pgdir (PDX 4096) ≠ none := by
  refine ⟨rfl, rfl, ?_⟩
  intro h
  exact Option.noConfusion h

/-- C1 (amended): querying an unmapped page reports it as not mapped;
when the page's page table is present no table entry changes at all, but
because the walk is invoked with the allocate flag set, an absent
intermediate table is allocated when a free page is available — the
page's directory entry is written (all leaf entries of the fresh table
being zero), every other directory entry being left unchanged. -/
theorem claim_c1 (st : KState) (va : Nat) (hva : va + PGSIZE < W) :
    (∀ pt : Nat → Nat, st.pgdir (PDX va) = some pt → pt (PTX va) &&& PTE_P = 0 →
        showLoop st va va SHOW_FUEL = some ([Event.notMapped va], st))
  ∧ (st.pgdir (PDX va) = none → st.freePages ≠ 0 →
      ∃ st', showLoop st va va SHOW_FUEL = some ([Event.notMapped va], st')
        ∧ st'.pgdir (PDX va) = some (fun _ => 0)
        ∧ (∀ j, j ≠ PDX va → st'.pgdir j = st.pgdir j)
        ∧ st'.freePages = st.freePages - 1) := by
  constructor
  · intro pt hpt hP
    have hw := pgdir_walk_present true hpt
    have hg : getPTE st (PDX va, PTX va) = pt (PTX va) := by simp [getPTE, hpt]
    exact showLoop_single_not st st va _ hva hw (by rw [hg]; exact hP)
  · intro hnone hfree
    refine ⟨{ st with
        pgdir := fun j => if j = PDX va then some (fun _ => 0) else st.pgdir j,
        freePages := st.freePages - 1 }, ?_, by simp, fun j hj => by simp [hj], rfl⟩
    have hw : pgdir_walk st va true
        = some ((PDX va, PTX va),
            { st with
              pgdir := fun j => if j = PDX va then some (fun _ => 0) else st.pgdir j,
              freePages := st.freePages - 1 }) := by
      simp [pgdir_walk, hnone, hfree]
    refine showLoop_single_not st _ va _ hva hw ?_
    simp [getPTE]

/-- Witness for C1 on a concrete unmapped page with the table present. -/
theorem claim_c1_witness :
    (4096 + PGSIZE < W ∧ stMap.pgdir (PDX 4096) = some ptEx
      ∧ ptEx (PTX 4096) &&& PTE_P = 0)
  ∧ showLoop stMap 4096 4096 SHOW_FUEL = some ([Event.notMapped 4096], stMap) :=
  ⟨⟨by decide, rfl, by decide⟩,
   (claim_c1 stMap 4096 (by decide)).1 ptEx rfl (by decide)⟩

/-- C2: when the page-table walk fails (here: page table absent and no
free page left), `setPerm` does not reject the operation — the C code
dereferences the null walk result without any check, a crash, modelled
by `none`.  The claim describes the required behavior; the code deviates
from it. -/
theorem claim_c2 :
    pgdir_walk stEx 4096 true = none
  ∧ setPermCore stEx 4096 7 = none
  ∧ runcmd "setPerm 0x1000 0x7".data stEx = none :=
  ⟨rfl, rfl, rfl⟩

/-- C3: for a leaf entry already present in the tables, `setPerm(va,
bits)` with `bits` in the low 12-bit field and the present bit set,
followed by `showmappings(va, va)`, leaves the upper 20 bits (the
physical frame) of the entry unchanged, sets the low 12 bits to exactly
`bits`, and reports the page as mapped with the old frame address and
precisely the permission bits of `bits`. -/
theorem claim_c3 (st : KState) (va bits : Nat) (pt : Nat → Nat)
    (hpt : st.pgdir (PDX va) = some pt)
    (hold : pt (PTX va) < W)
    (hbits : bits < 4096)
    (hp : bits &&& PTE_P ≠ 0)
    (hva : va + PGSIZE < W) :
    ∃ st', setPermCore st va bits = some st'
      ∧ getPTE st' (PDX va, PTX va) % 4096 = bits
      ∧ getPTE st' (PDX va, PTX va) / 4096 = pt (PTX va) / 4096
      ∧ showLoop st' va va SHOW_FUEL =
          some ([Event.mapped va (pt (PTX va) &&& 0xFFFFF000)
                  true (bits &&& PTE_U != 0) (bits &&& PTE_W != 0)], st') := by
  set old := pt (PTX va) with hold_def
  set q := old / 4096 with hq_def
  have hmask : old &&& 0xFFFFF000 = q * 4096 := and_mask_eq_div_mul old hold
  have hlor : q * 4096 ||| bits = q * 4096 + bits := by
    rw [show q * 4096 = 2 ^ 12 * q by rw [show (4096 : Nat) = 2 ^ 12 by norm_num]; ring]
    exact mul_pow_lor_eq_add q bits (by norm_num; omega)
  set newPte := q * 4096 + bits with hnew_def
  set st' := setPTE st (PDX va, PTX va) newPte with hstd
  have hw := pgdir_walk_present true hpt
  have hg : getPTE st (PDX va, PTX va) = old := by simp [getPTE, hpt, hold_def]
  have hsp : setPermCore st va bits = some st' := by
    simp only [setPermCore, hw, hg, hmask, hlor, hstd]
  have hg' : getPTE st' (PDX va, PTX va) = newPte := by
    simp [hstd, setPTE, getPTE, hpt]
  have hmod : newPte % 4096 = bits := by
    rw [hnew_def]
    omega
  have hdiv : newPte / 4096 = q := by
    rw [hnew_def]
    omega
  have hnewlt : newPte < W := by
    have hW : W = 4294967296 := by norm_num [W]
    rw [hnew_def, hq_def]
    omega
  have hmask' : newPte &&& 0xFFFFF000 = old &&& 0xFFFFF000 := by
    rw [and_mask_eq_div_mul newPte hnewlt, hdiv, hmask]
  have hflagP : newPte &&& PTE_P = bits &&& PTE_P := by
    have := flags_low q bits 0 hbits (by norm_num)
    simpa [PTE_P] using this
  have hflagW : newPte &&& PTE_W = bits &&& PTE_W := by
    have := flags_low q bits 1 hbits (by norm_num)
    simpa [PTE_W] using this
  have hflagU : newPte &&& PTE_U = bits &&& PTE_U := by
    have := flags_low q bits 2 hbits (by norm_num)
    simpa [PTE_U] using this
  have hpt' : st'.pgdir (PDX va) = some (fun t => if t = PTX va then newPte else pt t) := by
    simp [hstd, setPTE, hpt]
  have hw' : pgdir_walk st' va true = some ((PDX va, PTX va), st') :=
    pgdir_walk_present true hpt'
  have hshow := showLoop_single_mapped st' st' va _ hva hw'
    (by rw [hg', hflagP]; exact hp)
  refine ⟨st', hsp, by rw [hg', hmod], by rw [hg', hdiv], ?_⟩
  rw [hshow, hg', hmask', hflagP, hflagW, hflagU]
  congr 2
  simp [bne_iff_ne, hp]

/-- Witness for C3 at `va = 0x1000`, `bits = 7` over `stMap`. -/
theorem claim_c3_witness :
    (stMap.pgdir (PDX 4096) = some ptEx ∧ ptEx (PTX 4096) < W ∧ (7 : Nat) < 4096
      ∧ (7 : Nat) &&& PTE_P ≠ 0 ∧ 4096 + PGSIZE < W)
  ∧ ∃ st', setPermCore stMap 4096 7 = some st'
      ∧ getPTE st' (PDX 4096, PTX 4096) % 4096 = 7
      ∧ getPTE st' (PDX 4096, PTX 4096) / 4096 = ptEx (PTX 4096) / 4096
      ∧ showLoop st' 4096 4096 SHOW_FUEL =
          some ([Event.mapped 4096 (ptEx (PTX 4096) &&& 0xFFFFF000)
                  true ((7 : Nat) &&& PTE_U != 0) ((7 : Nat) &&& PTE_W != 0)], st') :=
  ⟨⟨rfl, by decide, by decide, by decide, by decide⟩,
   claim_c3 stMap 4096 7 ptEx rfl (by decide) (by decide) (by decide) (by decide)⟩

end JosMonitor
